import Mathlib

set_option maxHeartbeats 1600000

/-!
Shallow embedding of the student-project matching notebook
(`matching.ipynb`).  The notebook is a linear script: it reads a roster,
derives skill and gender flags by thresholding, builds a MILP with
python-mip (`m +=` adds a constraint; a bare comparison builds a
constraint object and discards it), minimises a two-term objective,
and writes an `assigned_project` column from the solved values.
-/

namespace Matching

/-- A roster row: the numeric columns of the input sheet.  Scores are
`Option ℚ`: `none` models a missing cell (pandas NaN, every comparison
with which is false).  `pref` gives the preference rank the student put
on each project column. -/
structure StudentRow where
  ds_skill : Option ℚ
  pm_skill : Option ℚ
  gender : String
  pref : String → ℚ

/-- The comparison `score >= threshold` on a spreadsheet cell: a missing
(NaN) value compares false, as in pandas. -/
def scoreAtLeast (score : Option ℚ) (threshold : ℚ) : Bool :=
  match score with
  | some v => decide (threshold ≤ v)
  | none => false

/-- Column `data_science_skilled`: initialised to 0, set to 1 on the rows
where `ds_skill >= DS_SKILLED_THRESHOLD`. -/
def data_science_skilled (threshold : ℚ) (s : StudentRow) : ℚ :=
  if scoreAtLeast s.ds_skill threshold then 1 else 0

/-- Column `project_management_skilled`: initialised to 0, set to 1 on the
rows where `pm_skill >= PM_SKILLED_THRESHOLD`. -/
def project_management_skilled (threshold : ℚ) (s : StudentRow) : ℚ :=
  if scoreAtLeast s.pm_skill threshold then 1 else 0

/-- Column `is_male`: initialised to 0, set to 1 on the rows where
the gender column equals the string "Male". -/
def is_male (s : StudentRow) : ℚ :=
  if s.gender = "Male" then 1 else 0

/-- Parameter cell of the notebook. -/
def MAX_TEAM_SIZE : ℚ := 5

def MIN_TEAM_SIZE : ℚ := 3

def DS_SKILLED_THRESHOLD : ℚ := 4

def PM_SKILLED_THRESHOLD : ℚ := 5 / 2

def PROJECTS : List String :=
  ["Helvetas", "Rega", "GIZ I", "GIZ II", "MSF", "IMPACT"]

/-- Decision variables of the model: a binary `x_{i}_{p}` per
(student index, project name) pair and a continuous `gd_{p}` per project. -/
inductive Var
  | x (i : ℕ) (p : String)
  | gd (p : String)
deriving DecidableEq

/-- Direction of a linear constraint. -/
inductive Sense
  | le
  | ge
  | eq
deriving DecidableEq

/-- A linear constraint `Σ coeff · var ⟨sense⟩ rhs` as added with `m +=`. -/
structure LinCon where
  terms : List (ℚ × Var)
  sense : Sense
  rhs : ℚ
deriving DecidableEq

/-- Value of a linear expression under a variable assignment. -/
def evalTerms (nu : Var → ℚ) (ts : List (ℚ × Var)) : ℚ :=
  (ts.map (fun t => t.1 * nu t.2)).sum

/-- A variable assignment meets one linear constraint. -/
def satisfies (nu : Var → ℚ) (c : LinCon) : Prop :=
  match c with
  | ⟨ts, Sense.le, r⟩ => evalTerms nu ts ≤ r
  | ⟨ts, Sense.ge, r⟩ => r ≤ evalTerms nu ts
  | ⟨ts, Sense.eq, r⟩ => evalTerms nu ts = r

instance instDecidableSatisfies (nu : Var → ℚ) (c : LinCon) :
    Decidable (satisfies nu c) :=
  match c with
  | ⟨ts, Sense.le, r⟩ => inferInstanceAs (Decidable (evalTerms nu ts ≤ r))
  | ⟨ts, Sense.ge, r⟩ => inferInstanceAs (Decidable (r ≤ evalTerms nu ts))
  | ⟨ts, Sense.eq, r⟩ => inferInstanceAs (Decidable (evalTerms nu ts = r))

/-- Row access `students.loc[i, ...]`; the default row is never reached,
since every access in the model uses an index below the roster length. -/
def rowAt (students : List StudentRow) (i : ℕ) : StudentRow :=
  (students.get? i).getD ⟨none, none, "", fun _ => 0⟩

/-- The constraints the notebook actually adds to the model (`m +=` in the
strict-requirements cell): one total-assignment equality per student, then
per project the minimum-size, maximum-size, data-science-coverage and
PM-coverage inequalities.  The two gender-linking comparisons of the
objective cell are built without `m +=` and are therefore not part of the
model; this list is the whole constraint set. -/
def strictRequirements (dsT pmT minT maxT : ℚ) (projects : List String)
    (students : List StudentRow) : List LinCon :=
  (List.range students.length).map (fun i =>
    { terms := projects.map (fun p => ((1 : ℚ), Var.x i p))
      sense := Sense.eq
      rhs := 1 })
  ++ projects.flatMap (fun p =>
    [ { terms := (List.range students.length).map (fun i => ((1 : ℚ), Var.x i p))
        sense := Sense.ge
        rhs := minT },
      { terms := (List.range students.length).map (fun i => ((1 : ℚ), Var.x i p))
        sense := Sense.le
        rhs := maxT },
      { terms := (List.range students.length).map (fun i =>
          (data_science_skilled dsT (rowAt students i), Var.x i p))
        sense := Sense.ge
        rhs := 1 },
      { terms := (List.range students.length).map (fun i =>
          (project_management_skilled pmT (rowAt students i), Var.x i p))
        sense := Sense.ge
        rhs := 1 } ])

/-- The expression `number_of_males` computed per project in the objective
cell: `Σ_i x[i][p] * is_male[i]`. -/
def number_of_males (students : List StudentRow) (p : String) : List (ℚ × Var) :=
  (List.range students.length).map (fun i => (is_male (rowAt students i), Var.x i p))

/-- The expression `number_of_females` computed per project in the objective
cell: `Σ_i x[i][p] * (1 - is_male[i])`. -/
def number_of_females (students : List StudentRow) (p : String) : List (ℚ × Var) :=
  (List.range students.length).map (fun i => (1 - is_male (rowAt students i), Var.x i p))

/-- `priority_objective_function`: `Σ_i Σ_p pref[i][p] · x[i][p]`. -/
def priority_objective_function (students : List StudentRow)
    (projects : List String) : List (ℚ × Var) :=
  (List.range students.length).flatMap (fun i =>
    projects.map (fun p => ((rowAt students i).pref p, Var.x i p)))

/-- `gender_diversity_objective_function`: `Σ_p gd[p]`. -/
def gender_diversity_objective_function (projects : List String) : List (ℚ × Var) :=
  projects.map (fun p => ((1 : ℚ), Var.gd p))

/-- The minimised objective, `priority + gender diversity`. -/
def objective_function (students : List StudentRow)
    (projects : List String) : List (ℚ × Var) :=
  priority_objective_function students projects
    ++ gender_diversity_objective_function projects

/-- Feasibility for the model as built: the `x` variables are binary, the
`gd` variables respect their lower bound 0, and every constraint the
notebook added holds. -/
def feasible (dsT pmT minT maxT : ℚ) (projects : List String)
    (students : List StudentRow) (nu : Var → ℚ) : Prop :=
  (∀ i ∈ List.range students.length, ∀ p ∈ projects,
      nu (Var.x i p) = 0 ∨ nu (Var.x i p) = 1) ∧
  (∀ p ∈ projects, 0 ≤ nu (Var.gd p)) ∧
  (∀ c ∈ strictRequirements dsT pmT minT maxT projects students, satisfies nu c)

/-- Objective value of an assignment. -/
def objective_value (students : List StudentRow) (projects : List String)
    (nu : Var → ℚ) : ℚ :=
  evalTerms nu (objective_function students projects)

/-- Optimality: feasible and of minimal objective value among feasible
assignments. -/
def IsOptimal (dsT pmT minT maxT : ℚ) (projects : List String)
    (students : List StudentRow) (nu : Var → ℚ) : Prop :=
  feasible dsT pmT minT maxT projects students nu ∧
  ∀ mu, feasible dsT pmT minT maxT projects students mu →
    objective_value students projects nu ≤ objective_value students projects mu

/-- An assignment with every gender-diversity variable forced to 0 and the
assignment variables untouched. -/
def zeroGd (nu : Var → ℚ) : Var → ℚ :=
  fun v =>
    match v with
    | Var.x i p => nu (Var.x i p)
    | Var.gd _ => 0

/-- Output cell, one student: scan the projects in order and keep the last
project whose solved value compares equal to 1; the column was initialised
to the empty string.  A solved value is `Option ℚ`: `none` models Python
`None` (unsolved variable), which compares unequal to 1. -/
def assigned_project (projects : List String) (xVal : String → Option ℚ) : String :=
  projects.foldl (fun acc p => if xVal p = some 1 then p else acc) ""

/-- Output cell, whole roster: the `assigned_project` column that is written
to the output sheet. -/
def matching_output (students : List StudentRow) (projects : List String)
    (xVals : ℕ → String → Option ℚ) : List String :=
  (List.range students.length).map (fun i => assigned_project projects (xVals i))

/-- Terminal statuses of the solving capability. -/
inductive OptStatus
  | OPTIMAL
  | FEASIBLE
  | INFEASIBLE
  | UNBOUNDED
  | ERROR
deriving DecidableEq

/-- The notebook after `m.optimize()`: the returned status is only
displayed, and the output cell runs unconditionally, whatever the status
was. -/
def postSolve (status : OptStatus) (students : List StudentRow)
    (projects : List String) (xVals : ℕ → String → Option ℚ) :
    OptStatus × List String :=
  (status, matching_output students projects xVals)

/-- A one-student roster: male, both scores 5, every preference rank 2. -/
def roster1 : List StudentRow :=
  [⟨some 5, some 5, "Male", fun _ => 2⟩]

/-- The solution assigning every `x` variable 1 and every `gd` variable 0. -/
def nu1 : Var → ℚ :=
  fun v =>
    match v with
    | Var.x _ _ => 1
    | Var.gd _ => 0

/-- Solver values in which every variable reads back 0. -/
def xZeroVals : ℕ → String → Option ℚ :=
  fun _ _ => some 0

theorem evalTerms_cons (nu : Var → ℚ) (t : ℚ × Var) (ts : List (ℚ × Var)) :
    evalTerms nu (t :: ts) = t.1 * nu t.2 + evalTerms nu ts := by
  simp [evalTerms]

theorem evalTerms_append (nu : Var → ℚ) (a b : List (ℚ × Var)) :
    evalTerms nu (a ++ b) = evalTerms nu a + evalTerms nu b := by
  simp [evalTerms]

theorem evalTerms_flatMap {α : Type} (nu : Var → ℚ) (l : List α)
    (f : α → List (ℚ × Var)) :
    evalTerms nu (l.flatMap f) = (l.map (fun a => evalTerms nu (f a))).sum := by
  induction l with
  | nil => simp [evalTerms]
  | cons a t ih => simp [List.flatMap_cons, evalTerms_append, ih]

theorem evalTerms_one_row (nu : Var → ℚ) (projects : List String) (i : ℕ) :
    evalTerms nu (projects.map (fun p => ((1 : ℚ), Var.x i p))) =
      (projects.map (fun p => nu (Var.x i p))).sum := by
  simp [evalTerms, List.map_map, Function.comp_def]

theorem evalTerms_one_col (nu : Var → ℚ) (n : ℕ) (p : String) :
    evalTerms nu ((List.range n).map (fun i => ((1 : ℚ), Var.x i p))) =
      ((List.range n).map (fun i => nu (Var.x i p))).sum := by
  simp [evalTerms, List.map_map, Function.comp_def]

theorem evalTerms_ds_col (nu : Var → ℚ) (dsT : ℚ) (students : List StudentRow)
    (n : ℕ) (p : String) :
    evalTerms nu ((List.range n).map (fun i =>
        (data_science_skilled dsT (rowAt students i), Var.x i p))) =
      ((List.range n).map (fun i =>
        data_science_skilled dsT (rowAt students i) * nu (Var.x i p))).sum := by
  simp [evalTerms, List.map_map, Function.comp_def]

theorem evalTerms_pm_col (nu : Var → ℚ) (pmT : ℚ) (students : List StudentRow)
    (n : ℕ) (p : String) :
    evalTerms nu ((List.range n).map (fun i =>
        (project_management_skilled pmT (rowAt students i), Var.x i p))) =
      ((List.range n).map (fun i =>
        project_management_skilled pmT (rowAt students i) * nu (Var.x i p))).sum := by
  simp [evalTerms, List.map_map, Function.comp_def]

theorem evalTerms_pref_row (nu : Var → ℚ) (students : List StudentRow)
    (projects : List String) (i : ℕ) :
    evalTerms nu (projects.map (fun p => ((rowAt students i).pref p, Var.x i p))) =
      (projects.map (fun p => (rowAt students i).pref p * nu (Var.x i p))).sum := by
  simp [evalTerms, List.map_map, Function.comp_def]

theorem evalTerms_gd (nu : Var → ℚ) (projects : List String) :
    evalTerms nu (gender_diversity_objective_function projects) =
      (projects.map (fun p => nu (Var.gd p))).sum := by
  simp [gender_diversity_objective_function, evalTerms, List.map_map, Function.comp_def]

theorem objective_value_split (students : List StudentRow) (projects : List String)
    (nu : Var → ℚ) :
    objective_value students projects nu =
      evalTerms nu (priority_objective_function students projects) +
        (projects.map (fun p => nu (Var.gd p))).sum := by
  rw [objective_value, objective_function, evalTerms_append, evalTerms_gd]

theorem assigned_project_foldl (f : String → Option ℚ) :
    ∀ (l : List String) (acc : String),
      l.foldl (fun a p => if f p = some 1 then p else a) acc = acc ∨
      (l.foldl (fun a p => if f p = some 1 then p else a) acc ∈ l ∧
        f (l.foldl (fun a p => if f p = some 1 then p else a) acc) = some 1)
  | [], _ => Or.inl rfl
  | p :: t, acc => by
    have ih := assigned_project_foldl f t (if f p = some 1 then p else acc)
    rw [List.foldl_cons]
    rcases ih with h | ⟨h1, h2⟩
    · rw [h]
      by_cases hp : f p = some 1
      · right
        rw [if_pos hp]
        exact ⟨List.mem_cons_self p t, hp⟩
      · left
        rw [if_neg hp]
    · right
      exact ⟨List.mem_cons_of_mem p h1, h2⟩

/-- C3: the minimised objective is exactly the priority term plus the
gender-diversity term, summed with weight 1:1 and with no other
contribution. -/
theorem objective_is_priority_plus_diversity (students : List StudentRow)
    (projects : List String) (nu : Var → ℚ) :
    objective_value students projects nu =
      ((List.range students.length).map (fun i =>
        (projects.map (fun p => (rowAt students i).pref p * nu (Var.x i p))).sum)).sum
      + (projects.map (fun p => nu (Var.gd p))).sum := by
  rw [objective_value_split]
  congr 1
  rw [priority_objective_function, evalTerms_flatMap]
  apply congrArg List.sum
  apply List.map_congr_left
  intro i _
  rw [evalTerms_pref_row]

/-- C4: the classifier thresholds are inclusive and gender is tested by
strict equality with the male category. -/
theorem eligibility_classifier_thresholds (dsT pmT v : ℚ) (o : Option ℚ)
    (g : String) (pr : String → ℚ) :
    (data_science_skilled dsT ⟨some v, o, g, pr⟩ = 1 ↔ dsT ≤ v) ∧
    (project_management_skilled pmT ⟨o, some v, g, pr⟩ = 1 ↔ pmT ≤ v) ∧
    data_science_skilled dsT ⟨some dsT, o, g, pr⟩ = 1 ∧
    data_science_skilled dsT ⟨some (dsT - 1), o, g, pr⟩ = 0 ∧
    project_management_skilled pmT ⟨o, some pmT, g, pr⟩ = 1 ∧
    project_management_skilled pmT ⟨o, some (pmT - 1), g, pr⟩ = 0 ∧
    (is_male ⟨o, o, g, pr⟩ = 1 ↔ g = "Male") := by
  refine ⟨?_, ?_, ?_, ?_, ?_, ?_, ?_⟩
  · simp [data_science_skilled, scoreAtLeast]
  · simp [project_management_skilled, scoreAtLeast]
  · simp [data_science_skilled, scoreAtLeast]
  · simp [data_science_skilled, scoreAtLeast]
  · simp [project_management_skilled, scoreAtLeast]
  · simp [project_management_skilled, scoreAtLeast]
  · simp [is_male]



/-- C5 amended: the output cell compares each solved value exactly to 1, so a
pair is extracted as assigned only when its value equals 1; there is no
rounding and no tolerance. -/
theorem extraction_requires_exact_one (projects : List String)
    (f : String → Option ℚ) :
    assigned_project projects f = "" ∨
      (assigned_project projects f ∈ projects ∧
        f (assigned_project projects f) = some 1) :=
  assigned_project_foldl f projects ""

/-- C5 counterexample: a solved value of 0.9999997 lies above the claimed
rounding threshold 0.5 yet is left unassigned by the extractor. -/
theorem rounding_tolerance_fails :
    assigned_project ["Helvetas"] (fun _ => some (9999997 / 10000000)) = "" ∧
    (1 / 2 : ℚ) ≤ 9999997 / 10000000 ∧ (9999997 / 10000000 : ℚ) ≠ 1 := by
  refine ⟨?_, by norm_num, by norm_num⟩
  simp [assigned_project]
  norm_num

/-- C6 amended: the output cell performs no invariant check: it is a total
function that emits one row per student unconditionally and has no error
outcome. -/
theorem extraction_never_raises (students : List StudentRow)
    (projects : List String) (xVals : ℕ → String → Option ℚ) :
    (matching_output students projects xVals).length = students.length := by
  simp [matching_output]

/-- C6 counterexample: a solved-value table violating the total-assignment
invariant (the only student matches no project) still yields a written
output row, with the empty-string sentinel and no error of any kind. -/
theorem no_consistency_check_on_violation :
    xZeroVals 0 "A" ≠ some 1 ∧ xZeroVals 0 "B" ≠ some 1 ∧
    matching_output roster1 ["A", "B"] xZeroVals = [""] := by
  refine ⟨by simp [xZeroVals], by simp [xZeroVals], ?_⟩
  simp [matching_output, assigned_project, xZeroVals, roster1, List.range_succ]

/-- C7 amended: the output cell runs whatever the terminal status was; with
no variable carrying a value (Python None, as after an infeasible solve)
every student keeps the sentinel and the output is still written, while the
status is surfaced unchanged as the value of `m.optimize()`. -/
theorem extraction_ignores_status (status : OptStatus)
    (students : List StudentRow) (projects : List String) :
    postSolve status students projects (fun _ _ => none) =
      (status, List.replicate students.length "") := by
  have h : ∀ l : List String, assigned_project l (fun _ => none) = "" := by
    intro l
    rcases assigned_project_foldl (fun _ => (none : Option ℚ)) l "" with h | ⟨_, h2⟩
    · exact h
    · simp at h2
  simp [postSolve, matching_output, h]

/-- C7 counterexample: with status INFEASIBLE the notebook still writes an
output row for the student, so an output is produced. -/
theorem output_written_on_infeasible :
    postSolve OptStatus.INFEASIBLE roster1 ["A"] (fun _ _ => none) =
      (OptStatus.INFEASIBLE, [""]) ∧ ([""] : List String) ≠ [] := by
  refine ⟨?_, by simp⟩
  simp [postSolve, matching_output, assigned_project, roster1, List.range_succ]

/-- C8 amended: a missing proficiency score is silently classified as not
skilled (the pandas comparison with NaN is false) and model construction
proceeds normally; no error is raised. -/
theorem missing_score_classified_unskilled (dsT pmT : ℚ) (g : String)
    (pr : String → ℚ) :
    data_science_skilled dsT ⟨none, none, g, pr⟩ = 0 ∧
    project_management_skilled pmT ⟨none, none, g, pr⟩ = 0 ∧
    (strictRequirements dsT pmT 3 5 PROJECTS [⟨none, none, g, pr⟩]).length = 25 := by
  refine ⟨rfl, rfl, ?_⟩
  simp [strictRequirements, PROJECTS]

/-- C8 counterexample: at the configured thresholds of the notebook, a student record
with both scores missing is classified unskilled and the model is still
built, instead of an InputError stopping the run. -/
theorem missing_score_silently_defaulted :
    data_science_skilled DS_SKILLED_THRESHOLD ⟨none, none, "Female", fun _ => 1⟩ = 0 ∧
    project_management_skilled PM_SKILLED_THRESHOLD ⟨none, none, "Female", fun _ => 1⟩ = 0 ∧
    (strictRequirements DS_SKILLED_THRESHOLD PM_SKILLED_THRESHOLD MIN_TEAM_SIZE
        MAX_TEAM_SIZE PROJECTS [⟨none, none, "Female", fun _ => 1⟩]).length = 25 := by
  refine ⟨rfl, rfl, ?_⟩
  simp [strictRequirements, PROJECTS]

/-- C10: a student none of whose solved values compares equal to 1 keeps the
empty-string sentinel, no error is raised, and the output row is still
written. -/
theorem unassigned_student_keeps_sentinel (students : List StudentRow)
    (projects : List String) (xVals : ℕ → String → Option ℚ) :
    (matching_output students projects xVals).length = students.length ∧
    ∀ i, i < students.length → (∀ p ∈ projects, xVals i p ≠ some 1) →
      (matching_output students projects xVals)[i]? = some "" := by
  refine ⟨by simp [matching_output], ?_⟩
  intro i hi hnone
  have hsent : assigned_project projects (xVals i) = "" := by
    rcases assigned_project_foldl (xVals i) projects "" with h | ⟨h1, h2⟩
    · exact h
    · exact absurd h2 (hnone _ h1)
  simp [matching_output, List.getElem?_map, List.getElem?_range, hi, hsent]

/-- C10 witness: with a one-student roster whose only solved value is 0,
the theorem applies and the student keeps the sentinel while the row is
still written. -/
theorem unassigned_student_keeps_sentinel_witness :
    (matching_output roster1 ["A"] xZeroVals).length = roster1.length ∧
    (matching_output roster1 ["A"] xZeroVals)[0]? = some "" :=
  ⟨(unassigned_student_keeps_sentinel roster1 ["A"] xZeroVals).1,
    (unassigned_student_keeps_sentinel roster1 ["A"] xZeroVals).2 0 (by simp [roster1])
      (by intro p _; simp [xZeroVals])⟩



/-- The all-assigned solution is feasible for a one-project model around
`roster1` with both team-size bounds equal to 1. -/
theorem roster1_feasible : feasible 4 (5/2) 1 1 ["A"] roster1 nu1 := by
  refine ⟨?_, ?_, ?_⟩
  all_goals
    simp [feasible, strictRequirements, satisfies, evalTerms, roster1, nu1, rowAt,
      data_science_skilled, project_management_skilled, scoreAtLeast,
      List.range_succ]
  all_goals norm_num

/-- C1, code bug: the two gender-linking comparisons are computed but never
added with `m +=`, so the built model does not contain them: here is a
feasible solution of the built model whose only team is all male
(male count 1, female count 0) while its gender-diversity variable is 0,
violating `g ≥ male_count - female_count`. -/
theorem gender_linking_constraints_missing :
    feasible 4 (5/2) 1 1 ["A"] roster1 nu1 ∧
    evalTerms nu1 (number_of_males roster1 "A") = 1 ∧
    evalTerms nu1 (number_of_females roster1 "A") = 0 ∧
    nu1 (Var.gd "A") = 0 := by
  refine ⟨roster1_feasible, ?_, ?_, rfl⟩ <;>
    simp [evalTerms, number_of_males, number_of_females, roster1, nu1, rowAt,
      is_male, List.range_succ]

/-- C2: every feasible solution of the built model assigns each student to
exactly one project, holds each team size between the two bounds (imposed
as separate inequalities), and gives each project at least one
data-science-skilled and one PM-skilled member. -/
theorem feasible_assignment_invariants (dsT pmT minT maxT : ℚ)
    (projects : List String) (students : List StudentRow) (nu : Var → ℚ)
    (h : feasible dsT pmT minT maxT projects students nu) :
    (∀ i ∈ List.range students.length,
        (projects.map (fun p => nu (Var.x i p))).sum = 1) ∧
    (∀ p ∈ projects,
        minT ≤ ((List.range students.length).map (fun i => nu (Var.x i p))).sum ∧
        ((List.range students.length).map (fun i => nu (Var.x i p))).sum ≤ maxT) ∧
    (∀ p ∈ projects,
        1 ≤ ((List.range students.length).map (fun i =>
          data_science_skilled dsT (rowAt students i) * nu (Var.x i p))).sum) ∧
    (∀ p ∈ projects,
        1 ≤ ((List.range students.length).map (fun i =>
          project_management_skilled pmT (rowAt students i) * nu (Var.x i p))).sum) := by
  obtain ⟨-, -, hc⟩ := h
  refine ⟨?_, ?_, ?_, ?_⟩
  · intro i hi
    have hm : ((⟨projects.map (fun p => ((1 : ℚ), Var.x i p)), Sense.eq, 1⟩ : LinCon))
        ∈ strictRequirements dsT pmT minT maxT projects students := by
      apply List.mem_append_left
      exact List.mem_map_of_mem _ hi
    have h2 : evalTerms nu (projects.map (fun p => ((1 : ℚ), Var.x i p))) = 1 :=
      hc _ hm
    rw [evalTerms_one_row] at h2
    exact h2
  · intro p hp
    constructor
    · have hm : ((⟨(List.range students.length).map
            (fun i => ((1 : ℚ), Var.x i p)), Sense.ge, minT⟩ : LinCon))
          ∈ strictRequirements dsT pmT minT maxT projects students := by
        apply List.mem_append_right
        exact List.mem_flatMap.mpr ⟨p, hp, List.mem_cons_self _ _⟩
      have h2 : minT ≤ evalTerms nu ((List.range students.length).map
          (fun i => ((1 : ℚ), Var.x i p))) := hc _ hm
      rw [evalTerms_one_col] at h2
      exact h2
    · have hm : ((⟨(List.range students.length).map
            (fun i => ((1 : ℚ), Var.x i p)), Sense.le, maxT⟩ : LinCon))
          ∈ strictRequirements dsT pmT minT maxT projects students := by
        apply List.mem_append_right
        exact List.mem_flatMap.mpr
          ⟨p, hp, List.mem_cons_of_mem _ (List.mem_cons_self _ _)⟩
      have h2 : evalTerms nu ((List.range students.length).map
          (fun i => ((1 : ℚ), Var.x i p))) ≤ maxT := hc _ hm
      rw [evalTerms_one_col] at h2
      exact h2
  · intro p hp
    have hm : ((⟨(List.range students.length).map (fun i =>
          (data_science_skilled dsT (rowAt students i), Var.x i p)), Sense.ge, 1⟩ : LinCon))
        ∈ strictRequirements dsT pmT minT maxT projects students := by
      apply List.mem_append_right
      exact List.mem_flatMap.mpr
        ⟨p, hp, List.mem_cons_of_mem _ (List.mem_cons_of_mem _ (List.mem_cons_self _ _))⟩
    have h2 : (1 : ℚ) ≤ evalTerms nu ((List.range students.length).map (fun i =>
        (data_science_skilled dsT (rowAt students i), Var.x i p))) := hc _ hm
    rw [evalTerms_ds_col] at h2
    exact h2
  · intro p hp
    have hm : ((⟨(List.range students.length).map (fun i =>
          (project_management_skilled pmT (rowAt students i), Var.x i p)), Sense.ge, 1⟩ : LinCon))
        ∈ strictRequirements dsT pmT minT maxT projects students := by
      apply List.mem_append_right
      exact List.mem_flatMap.mpr
        ⟨p, hp, List.mem_cons_of_mem _ (List.mem_cons_of_mem _
          (List.mem_cons_of_mem _ (List.mem_cons_self _ _)))⟩
    have h2 : (1 : ℚ) ≤ evalTerms nu ((List.range students.length).map (fun i =>
        (project_management_skilled pmT (rowAt students i), Var.x i p))) := hc _ hm
    rw [evalTerms_pm_col] at h2
    exact h2

/-- C2 witness: the invariants theorem applied to the concrete feasible
solution `nu1` of the one-project model around `roster1`. -/
theorem feasible_assignment_invariants_witness :
    feasible 4 (5/2) 1 1 ["A"] roster1 nu1 ∧
    (["A"].map (fun p => nu1 (Var.x 0 p))).sum = 1 :=
  ⟨roster1_feasible,
    (feasible_assignment_invariants 4 (5/2) 1 1 ["A"] roster1 nu1 roster1_feasible).1
      0 (by simp [roster1])⟩



theorem strictRequirements_vars (dsT pmT minT maxT : ℚ) (projects : List String)
    (students : List StudentRow) :
    ∀ c ∈ strictRequirements dsT pmT minT maxT projects students,
      ∀ t ∈ c.terms, ∃ i p, t.2 = Var.x i p := by
  intro c hc t ht
  rw [strictRequirements, List.mem_append] at hc
  rcases hc with hc | hc
  · obtain ⟨i, hi, rfl⟩ := List.mem_map.mp hc
    obtain ⟨p, hp, rfl⟩ := List.mem_map.mp ht
    exact ⟨i, p, rfl⟩
  · obtain ⟨p, hp, hc⟩ := List.mem_flatMap.mp hc
    simp only [List.mem_cons, List.not_mem_nil, or_false] at hc
    rcases hc with rfl | rfl | rfl | rfl <;>
      · obtain ⟨i, hi, rfl⟩ := List.mem_map.mp ht
        exact ⟨i, p, rfl⟩

theorem evalTerms_congr (nu mu : Var → ℚ) (ts : List (ℚ × Var))
    (h : ∀ t ∈ ts, nu t.2 = mu t.2) : evalTerms nu ts = evalTerms mu ts := by
  induction ts with
  | nil => rfl
  | cons t ts ih =>
    rw [evalTerms_cons, evalTerms_cons, h t (List.mem_cons_self t ts),
      ih (fun u hu => h u (List.mem_cons_of_mem t hu))]

theorem satisfies_of_evalTerms_eq (nu mu : Var → ℚ) (c : LinCon)
    (h : evalTerms nu c.terms = evalTerms mu c.terms) (hs : satisfies nu c) :
    satisfies mu c := by
  rcases c with ⟨ts, s, r⟩
  dsimp only at h
  cases s
  case le =>
    have hs2 : evalTerms nu ts ≤ r := hs
    show evalTerms mu ts ≤ r
    rw [← h]
    exact hs2
  case ge =>
    have hs2 : r ≤ evalTerms nu ts := hs
    show r ≤ evalTerms mu ts
    rw [← h]
    exact hs2
  case eq =>
    have hs2 : evalTerms nu ts = r := hs
    show evalTerms mu ts = r
    rw [← h]
    exact hs2

theorem feasible_zeroGd (dsT pmT minT maxT : ℚ) (projects : List String)
    (students : List StudentRow) (nu : Var → ℚ)
    (h : feasible dsT pmT minT maxT projects students nu) :
    feasible dsT pmT minT maxT projects students (zeroGd nu) := by
  obtain ⟨hb, hg, hc⟩ := h
  refine ⟨?_, ?_, ?_⟩
  · intro i hi p hp
    exact hb i hi p hp
  · intro p hp
    exact le_refl 0
  · intro c hcm
    apply satisfies_of_evalTerms_eq nu (zeroGd nu) c ?_ (hc c hcm)
    apply evalTerms_congr
    intro t ht
    obtain ⟨i, p, hip⟩ := strictRequirements_vars dsT pmT minT maxT projects students c hcm t ht
    rw [hip]
    rfl

theorem priority_zeroGd (students : List StudentRow) (projects : List String)
    (nu : Var → ℚ) :
    evalTerms (zeroGd nu) (priority_objective_function students projects) =
      evalTerms nu (priority_objective_function students projects) := by
  apply evalTerms_congr
  intro t ht
  rw [priority_objective_function] at ht
  obtain ⟨i, hi, ht⟩ := List.mem_flatMap.mp ht
  obtain ⟨p, hp, rfl⟩ := List.mem_map.mp ht
  rfl

theorem objective_value_zeroGd (students : List StudentRow)
    (projects : List String) (nu : Var → ℚ) :
    objective_value students projects (zeroGd nu) =
      evalTerms nu (priority_objective_function students projects) := by
  rw [objective_value_split, priority_zeroGd]
  have h : (projects.map (fun p => zeroGd nu (Var.gd p))).sum = 0 := by
    simp [zeroGd]
  rw [h, add_zero]

theorem list_sum_zero_nonneg :
    ∀ (l : List ℚ), (∀ a ∈ l, 0 ≤ a) → l.sum = 0 → ∀ a ∈ l, a = 0
  | [], _, _, a, ha => absurd ha (List.not_mem_nil a)
  | b :: t, hpos, hsum, a, ha => by
    have hb : 0 ≤ b := hpos b (List.mem_cons_self b t)
    have ht : 0 ≤ t.sum :=
      List.sum_nonneg (fun x hx => hpos x (List.mem_cons_of_mem b hx))
    rw [List.sum_cons] at hsum
    have hb0 : b = 0 := by linarith
    have ht0 : t.sum = 0 := by linarith
    rcases List.mem_cons.mp ha with rfl | ha2
    · exact hb0
    · exact list_sum_zero_nonneg t
        (fun x hx => hpos x (List.mem_cons_of_mem b hx)) ht0 a ha2

/-- C9: the gender-diversity variables are only bounded below by 0 and only
appear in the minimised objective, so every optimal solution sets all of
them to 0 and achieves exactly the best value of the priority term alone. -/
theorem optimal_gender_diversity_zero (dsT pmT minT maxT : ℚ)
    (projects : List String) (students : List StudentRow) (nu : Var → ℚ)
    (h : IsOptimal dsT pmT minT maxT projects students nu) :
    (∀ p ∈ projects, nu (Var.gd p) = 0) ∧
    objective_value students projects nu =
      evalTerms nu (priority_objective_function students projects) ∧
    (∀ mu, feasible dsT pmT minT maxT projects students mu →
      evalTerms nu (priority_objective_function students projects) ≤
        evalTerms mu (priority_objective_function students projects)) := by
  obtain ⟨hf, hopt⟩ := h
  have h1 := hopt _ (feasible_zeroGd dsT pmT minT maxT projects students nu hf)
  rw [objective_value_zeroGd] at h1
  have hsplit := objective_value_split students projects nu
  have hGnn : ∀ a ∈ projects.map (fun p => nu (Var.gd p)), 0 ≤ a := by
    intro a ha
    obtain ⟨p, hp, rfl⟩ := List.mem_map.mp ha
    exact hf.2.1 p hp
  have hG0 : (projects.map (fun p => nu (Var.gd p))).sum = 0 := by
    have := List.sum_nonneg hGnn
    linarith [hsplit ▸ h1]
  refine ⟨?_, ?_, ?_⟩
  · intro p hp
    exact list_sum_zero_nonneg _ hGnn hG0 _ (List.mem_map_of_mem _ hp)
  · rw [hsplit, hG0, add_zero]
  · intro mu hmu
    have h2 := hopt _ (feasible_zeroGd dsT pmT minT maxT projects students mu hmu)
    rw [objective_value_zeroGd] at h2
    calc evalTerms nu (priority_objective_function students projects)
        = objective_value students projects nu := by rw [hsplit, hG0, add_zero]
      _ ≤ evalTerms mu (priority_objective_function students projects) := h2



/-- The all-assigned solution is optimal for the one-project model around
`roster1`: every feasible assignment puts the single student on the single
project and pays at least the preference rank 2. -/
theorem roster1_optimal : IsOptimal 4 (5/2) 1 1 ["A"] roster1 nu1 := by
  refine ⟨roster1_feasible, ?_⟩
  intro mu hmu
  have hmem : ((⟨["A"].map (fun p => ((1 : ℚ), Var.x 0 p)), Sense.eq, 1⟩ : LinCon))
      ∈ strictRequirements 4 (5/2) 1 1 ["A"] roster1 := by
    apply List.mem_append_left
    apply List.mem_map_of_mem
    simp [roster1]
  have hx0 : evalTerms mu (["A"].map (fun p => ((1 : ℚ), Var.x 0 p))) = 1 :=
    hmu.2.2 _ hmem
  simp [evalTerms] at hx0
  have hg : 0 ≤ mu (Var.gd "A") := hmu.2.1 "A" (by simp)
  have hlhs : objective_value roster1 ["A"] nu1 = 2 := by
    simp [objective_value, objective_function, priority_objective_function,
      gender_diversity_objective_function, evalTerms, roster1, nu1, rowAt,
      List.range_succ]
  rw [hlhs]
  have hrhs : objective_value roster1 ["A"] mu =
      2 * mu (Var.x 0 "A") + mu (Var.gd "A") := by
    simp [objective_value, objective_function, priority_objective_function,
      gender_diversity_objective_function, evalTerms, roster1, rowAt,
      List.range_succ]
  rw [hrhs, hx0]
  linarith

/-- C9 witness: the theorem applied to the concrete optimal solution `nu1`
of the one-project model around `roster1`. -/
theorem optimal_gender_diversity_zero_witness :
    IsOptimal 4 (5/2) 1 1 ["A"] roster1 nu1 ∧ nu1 (Var.gd "A") = 0 :=
  ⟨roster1_optimal,
    (optimal_gender_diversity_zero 4 (5/2) 1 1 ["A"] roster1 nu1 roster1_optimal).1
      "A" (by simp)⟩

end Matching
